import Mathlib

set_option maxRecDepth 8000

namespace PyToolbox

/-! Shallow embedding of the PyToolbox CLI (src/main.py): the rename/convert
pipeline (handle_rename), the PDF merger (handle_combine) and the text
analyzer (handle_analyze). Filesystem listings, PDF page extraction and
console output are made explicit as data. -/

/-- Arguments of the rename subcommand (main.py lines 63-70).  The argparse
destinations prefix and suffix are called pre and suf here; overwrite is
None or a list of at least one string (nargs is one-or-more), and argparse
never puts None inside the list, so entries are plain strings. -/
structure RArgs where
  pre : String
  suf : String
  numbered : Bool
  overwrite : Option (List String)
  txtpdfconvert : Bool
  deriving DecidableEq

/-- One entry of the resolved listing: base name and extension as split by
os.path.splitext (ext includes the dot), whether the entry is a regular
file, and for a PDF the per-page results of pdfplumber extract_text
(none models a page for which Python gets None, i.e. no extractable text). -/
structure FSEntry where
  base : String
  ext : String
  isFile : Bool
  pages : List (Option String)
  deriving DecidableEq

/-- How one run of handle_rename ends.  completed: the loop ran to the end.
pathNotFound: the early return at main.py line 103.  errOverwriteEmpty /
errOverwriteLength: the early returns at lines 121-126.  excConversion: an
exception escaped the conversion code (lines 154-158 have no try/except, so
for example text += None raises TypeError and aborts the whole command). -/
inductive ROutcome
  | completed
  | pathNotFound
  | errOverwriteEmpty
  | errOverwriteLength
  | excConversion
  deriving DecidableEq

/-- Observable effects of one run of handle_rename: the os.rename calls
performed in order (old full name, new full name), the paths of PDFs written
by txt-to-pdf conversion, the (path, content) pairs written by pdf-to-txt
conversion, and the outcome. -/
structure RenameResult where
  renames : List (String × String)
  pdfOutputs : List String
  txtOutputs : List (String × String)
  outcome : ROutcome
  deriving DecidableEq

/-- Name composition, main.py lines 130-133: new_name is prefix, base, suffix,
ext; when numbered it is recomputed as prefix, idx+1, suffix, ext. -/
def composeName (a : RArgs) (idx : Nat) (newBase ext : String) : String :=
  if a.numbered then a.pre ++ toString (idx + 1) ++ a.suf ++ ext
  else a.pre ++ newBase ++ a.suf ++ ext

/-- main.py lines 156-158: text starts empty and each page's extract_text is
appended; a page whose extraction is None makes "text += None" raise, which
this embedding reports as none. -/
def extractAllText : List (Option String) → Option String
  | [] => some ""
  | none :: _ => none
  | some s :: ps => (extractAllText ps).map (fun t => s ++ t)

/-- Python str.lower restricted to ASCII, which is all the extension
comparisons at main.py lines 139 and 154 need: lowercase every character. -/
def pyLower (s : String) : String := String.mk (s.data.map Char.toLower)

/-- Result of the body of the loop for one file: either the function returns
or raises (halt, carrying the outcome), or the file gets a new name and the
conversion side outputs listed. -/
inductive StepResult
  | halt (o : ROutcome)
  | ok (newName : String) (pdfOut : List String) (txtOut : List (String × String))
  deriving DecidableEq

/-- Loop body of handle_rename for one regular file, main.py lines 116-164:
overwrite validation and base-name choice (117-129, the None branch at 118-120
is unreachable because argparse yields strings), name composition (130-133),
then the optional txt-to-pdf or pdf-to-txt conversion (139-164). -/
def renameStep (a : RArgs) (idx : Nat) (e : FSEntry) : StepResult :=
  let withBase : String → StepResult := fun newBase =>
    let newName := composeName a idx newBase e.ext
    if a.txtpdfconvert && (pyLower e.ext == ".txt") then
      .ok newName [("./output_pdf/" ++ a.pre ++ e.base ++ a.suf ++ ".pdf")] []
    else if a.txtpdfconvert && (pyLower e.ext == ".pdf") then
      match extractAllText e.pages with
      | none => .halt .excConversion
      | some t => .ok newName [] [("./output_txt/" ++ a.pre ++ e.base ++ a.suf ++ ".txt", t)]
    else .ok newName [] []
  match a.overwrite with
  | some ow =>
    if idx < ow.length then
      if ow.getD idx "" = "" then .halt .errOverwriteEmpty
      else if ow.length ≠ idx + 1 then .halt .errOverwriteLength
      else withBase (ow.getD idx "")
    else withBase e.base
  | none => withBase e.base

/-- The enumerate loop of handle_rename, main.py lines 111-168.  idx counts
every listed entry, including non-files that are skipped at line 113-114;
a halt (early return or exception) stops the loop, keeping the renames
already performed. -/
def renameLoop (a : RArgs) : Nat → List FSEntry → RenameResult
  | _, [] => ⟨[], [], [], .completed⟩
  | idx, e :: rest =>
    if e.isFile = false then renameLoop a (idx + 1) rest
    else
      match renameStep a idx e with
      | .halt o => ⟨[], [], [], o⟩
      | .ok newName po txo =>
        let r := renameLoop a (idx + 1) rest
        ⟨(e.base ++ e.ext, newName) :: r.renames, po ++ r.pdfOutputs,
          txo ++ r.txtOutputs, r.outcome⟩

/-- The path argument as the filesystem presents it to handle_rename:
a directory with its listing in directory order, a single regular file,
or a missing path. -/
inductive RenamePath
  | dir (entries : List FSEntry)
  | onefile (e : FSEntry)
  | missing
  deriving DecidableEq

/-- handle_rename, main.py lines 94-168: resolve the path to a list of
entries (97-104) and run the enumerate loop over it. -/
def handle_rename (a : RArgs) : RenamePath → RenameResult
  | .dir es => renameLoop a 0 es
  | .onefile e => renameLoop a 0 [e]
  | .missing => ⟨[], [], [], .pathNotFound⟩

/-- Claim C1.  The code's overwrite-length validation at main.py line 124
compares len(overwrite) with idx+1, not with the file count: on a directory
of two files with overwrite list of length one, the length differs from the
file count yet the batch does not fail, both files are renamed and the run
completes, contradicting the claim that such a batch fails with zero
renames; and conversely an overwrite list whose length does equal the file
count, two names for two files, is rejected at the first file. -/
theorem c1_code_behavior :
    handle_rename ⟨"", "", false, some ["x"], false⟩
        (.dir [⟨"a", ".txt", true, []⟩, ⟨"b", ".txt", true, []⟩]) =
      ⟨[("a.txt", "x.txt"), ("b.txt", "b.txt")], [], [], .completed⟩ ∧
    handle_rename ⟨"", "", false, some ["x", "y"], false⟩
        (.dir [⟨"a", ".txt", true, []⟩, ⟨"b", ".txt", true, []⟩]) =
      ⟨[], [], [], .errOverwriteLength⟩ := by
  exact ⟨by decide, by decide⟩

/-- Claim C2 counterexample.  The loop index of handle_rename is the position
in the raw os.listdir listing, non-file entries included: a directory whose
listing is a subdirectory followed by exactly three regular files a.txt,
b.txt, c.txt gets the numbered names 2.txt, 3.txt, 4.txt, not the claimed
1.txt, 2.txt, 3.txt. -/
theorem c2_counterexample :
    (handle_rename ⟨"", "", true, none, false⟩
        (.dir [⟨"sub", "", false, []⟩, ⟨"a", ".txt", true, []⟩,
               ⟨"b", ".txt", true, []⟩, ⟨"c", ".txt", true, []⟩])).renames =
      [("a.txt", "2.txt"), ("b.txt", "3.txt"), ("c.txt", "4.txt")] ∧
    [("a.txt", "2.txt"), ("b.txt", "3.txt"), ("c.txt", "4.txt")] ≠
      [("a.txt", "1.txt"), ("b.txt", "2.txt"), ("c.txt", "3.txt")] := by
  exact ⟨by decide, by decide⟩

/-- Claim C2 as amended.  When the directory listing consists of exactly three
regular files and nothing else, rename with numbered produces the names
prefix 1 suffix ext, prefix 2 suffix ext, prefix 3 suffix ext in listing
order, regardless of the original base names; in general each file is
numbered by its 0-based position in the raw listing, not among regular files
only. -/
theorem c2_amended (pre suf b1 b2 b3 x1 x2 x3 : String) :
    (handle_rename ⟨pre, suf, true, none, false⟩
        (.dir [⟨b1, x1, true, []⟩, ⟨b2, x2, true, []⟩, ⟨b3, x3, true, []⟩])).renames =
      [(b1 ++ x1, pre ++ "1" ++ suf ++ x1),
       (b2 ++ x2, pre ++ "2" ++ suf ++ x2),
       (b3 ++ x3, pre ++ "3" ++ suf ++ x3)] := by
  have h1 : toString (0 + 1) = "1" := rfl
  have h2 : toString (1 + 1) = "2" := rfl
  have h3 : toString (2 + 1) = "3" := rfl
  simp [handle_rename, renameLoop, renameStep, composeName, h1, h2, h3]

/-- Claim C3.  When the numbered flag is set, the composed name is prefix,
idx+1, suffix, extension, and it does not depend on the base name passed in:
numbering overrides both the original base name and any overwrite entry. -/
theorem c3_numbered_wins (a : RArgs) (idx : Nat) (base owEntry ext : String)
    (h : a.numbered = true) :
    composeName a idx owEntry ext = a.pre ++ toString (idx + 1) ++ a.suf ++ ext ∧
    composeName a idx owEntry ext = composeName a idx base ext := by
  simp [composeName, h]

/-- Witness for c3_numbered_wins at a concrete input. -/
theorem c3_numbered_wins_witness :
    composeName ⟨"p", "s", true, some ["z"], false⟩ 0 "z" ".txt" =
      "p" ++ toString (0 + 1) ++ "s" ++ ".txt" ∧
    composeName ⟨"p", "s", true, some ["z"], false⟩ 0 "z" ".txt" =
      composeName ⟨"p", "s", true, some ["z"], false⟩ 0 "orig" ".txt" :=
  c3_numbered_wins ⟨"p", "s", true, some ["z"], false⟩ 0 "orig" "z" ".txt" rfl

/-- Claim C4.  The conversion code at main.py lines 139-164 is not wrapped in
try/except, so a conversion failure aborts the whole batch: on a directory
of bad.pdf (one page with no extractable text, extract_text gives None)
followed by good.txt, the exception from "text += None" escapes, no file is
renamed and good.txt is never processed, contradicting the claim that the
rest of the batch continues. -/
theorem c4_code_behavior :
    handle_rename ⟨"", "", false, none, true⟩
        (.dir [⟨"bad", ".pdf", true, [none]⟩, ⟨"good", ".txt", true, []⟩]) =
      ⟨[], [], [], .excConversion⟩ := by
  decide

/-- Claim C6.  On a readable PDF the code extracts every page in order,
concatenates with no separator and writes to
./output_txt/ prefix name suffix .txt, as claimed; but a page whose
extraction is None makes "text += None" raise TypeError, aborting the
conversion and the whole run instead of treating the page as an empty
string, contradicting the final part of the claim. -/
theorem c6_code_behavior :
    (handle_rename ⟨"p-", "-s", false, none, true⟩
        (.dir [⟨"doc", ".pdf", true, [some "A", some "B"]⟩])).txtOutputs =
      [("./output_txt/p-doc-s.txt", "AB")] ∧
    handle_rename ⟨"", "", false, none, true⟩
        (.dir [⟨"doc", ".pdf", true, [some "A", none]⟩]) =
      ⟨[], [], [], .excConversion⟩ := by
  exact ⟨by decide, by decide⟩

/-- Claim C10.  Even with the numbered flag set (so overwrite values never
reach the composed name), supplying an overwrite list still runs the
validation at main.py lines 117-126 inside the loop: for a regular file at
index idx with idx < len(overwrite), an empty entry or a list length
different from idx+1 aborts the batch at that file with no rename of it or
of any later file. -/
theorem c10_overwrite_validated_under_numbering (a : RArgs) (ow : List String)
    (e : FSEntry) (rest : List FSEntry) (idx : Nat)
    (hn : a.numbered = true) (ho : a.overwrite = some ow) (hf : e.isFile = true)
    (hlt : idx < ow.length) (hbad : ow.getD idx "" = "" ∨ ow.length ≠ idx + 1) :
    (renameLoop a idx (e :: rest)).renames = [] ∧
    ((renameLoop a idx (e :: rest)).outcome = .errOverwriteEmpty ∨
      (renameLoop a idx (e :: rest)).outcome = .errOverwriteLength) := by
  have hfn : ¬(e.isFile = false) := by simp [hf]
  by_cases he : ow.getD idx "" = ""
  · have hs : renameStep a idx e = .halt .errOverwriteEmpty := by
      simp only [renameStep, ho]
      rw [if_pos hlt, if_pos he]
    simp only [renameLoop, if_neg hfn, hs]
    exact ⟨trivial, Or.inl trivial⟩
  · have hlen : ow.length ≠ idx + 1 := by
      rcases hbad with hb | hb
      · exact absurd hb he
      · exact hb
    have hs : renameStep a idx e = .halt .errOverwriteLength := by
      simp only [renameStep, ho]
      rw [if_pos hlt, if_neg he, if_pos hlen]
    simp only [renameLoop, if_neg hfn, hs]
    exact ⟨trivial, Or.inr trivial⟩

/-- Witness for c10_overwrite_validated_under_numbering at a concrete input:
numbered rename, overwrite list of two names, one file at index 0. -/
theorem c10_witness :
    (renameLoop ⟨"", "", true, some ["u", "v"], false⟩ 0 [⟨"f", ".txt", true, []⟩]).renames = [] ∧
    ((renameLoop ⟨"", "", true, some ["u", "v"], false⟩ 0 [⟨"f", ".txt", true, []⟩]).outcome =
        .errOverwriteEmpty ∨
      (renameLoop ⟨"", "", true, some ["u", "v"], false⟩ 0 [⟨"f", ".txt", true, []⟩]).outcome =
        .errOverwriteLength) :=
  c10_overwrite_validated_under_numbering ⟨"", "", true, some ["u", "v"], false⟩
    ["u", "v"] ⟨"f", ".txt", true, []⟩ [] 0 rfl rfl rfl (by decide) (Or.inr (by decide))

/-- One argument of the combine subcommand: the file name and, when the file
can be opened, its ordered list of pages; none models a missing or
unreadable file, for which PdfMerger.append raises and handle_combine
prints a per-file message and continues. -/
structure CFile where
  name : String
  pages : Option (List String)
  deriving DecidableEq

/-- Observable effects of handle_combine: the pages of the accumulated
output document in order, the names skipped as non-PDF, and the names whose
append failed. -/
structure CombineResult where
  merged : List String
  skipped : List String
  failed : List String
  deriving DecidableEq

/-- Python str.endswith on whole strings. -/
def pyEndsWith (s t : String) : Bool := t.data.isSuffixOf s.data

/-- handle_combine, main.py lines 173-204: iterate the ordered file list,
skip any name for which name.endswith of ".pdf" is false (line 181, a
case-sensitive test), append the pages of each remaining readable file to
the merger, and report a file that fails to open without stopping. -/
def handle_combine : List CFile → CombineResult
  | [] => ⟨[], [], []⟩
  | f :: rest =>
    let r := handle_combine rest
    if pyEndsWith f.name ".pdf" = false then ⟨r.merged, f.name :: r.skipped, r.failed⟩
    else
      match f.pages with
      | none => ⟨r.merged, r.skipped, f.name :: r.failed⟩
      | some ps => ⟨ps ++ r.merged, r.skipped, r.failed⟩

/-- Claim C5 counterexample.  The test at main.py line 181 is the
case-sensitive name.endswith of ".pdf": the entry y.PDF ends in a PDF
extension case-insensitively, yet the code skips it and its pages are
missing from the output, contradicting the claimed case-insensitive
match. -/
theorem c5_counterexample :
    (handle_combine [⟨"x.pdf", some ["X1"]⟩, ⟨"y.PDF", some ["Y1"]⟩]).merged = ["X1"] ∧
    (handle_combine [⟨"x.pdf", some ["X1"]⟩, ⟨"y.PDF", some ["Y1"]⟩]).skipped = ["y.PDF"] ∧
    pyEndsWith (pyLower "y.PDF") ".pdf" = true := by
  exact ⟨by decide, by decide, by decide⟩

/-- Claim C5 as amended.  Combine skips exactly the entries whose name fails
the case-sensitive ".pdf" suffix test, with a notice rather than an error,
and the pages of the remaining readable PDF entries appear in the output in
input order: for x.pdf, y.txt, z.pdf the output is the pages of x.pdf then
those of z.pdf, and y.txt is only skipped. -/
theorem c5_amended (px py pz : List String) :
    (handle_combine [⟨"x.pdf", some px⟩, ⟨"y.txt", some py⟩,
        ⟨"z.pdf", some pz⟩]).merged = px ++ pz ∧
    (handle_combine [⟨"x.pdf", some px⟩, ⟨"y.txt", some py⟩,
        ⟨"z.pdf", some pz⟩]).skipped = ["y.txt"] ∧
    (∀ fs : List CFile, (handle_combine fs).merged =
      (fs.filterMap (fun f => if pyEndsWith f.name ".pdf" then f.pages else none)).flatten) ∧
    (∀ fs : List CFile, (handle_combine fs).skipped =
      (fs.filter (fun f => !pyEndsWith f.name ".pdf")).map CFile.name) := by
  have h1 : pyEndsWith "x.pdf" ".pdf" = true := by decide
  have h2 : pyEndsWith "y.txt" ".pdf" = false := by decide
  have h3 : pyEndsWith "z.pdf" ".pdf" = true := by decide
  refine ⟨by simp [handle_combine, h1, h2, h3], by simp [handle_combine, h1, h2, h3],
    ?_, ?_⟩
  · intro fs
    induction fs with
    | nil => rfl
    | cons f rest ih =>
      by_cases hp : pyEndsWith f.name ".pdf" = false
      · simp [handle_combine, hp, ih]
      · cases hps : f.pages with
        | none => simp [handle_combine, hp, hps, ih]
        | some ps => simp [handle_combine, hp, hps, ih]
  · intro fs
    induction fs with
    | nil => rfl
    | cons f rest ih =>
      by_cases hp : pyEndsWith f.name ".pdf" = false
      · simp [handle_combine, hp, ih]
      · cases hps : f.pages with
        | none => simp [handle_combine, hp, hps, ih]
        | some ps => simp [handle_combine, hp, hps, ih]

/-- The whitespace characters Python str.split with no argument splits on,
restricted to the one-byte range (the analyzer claims involve only these). -/
def pyIsSpace (c : Char) : Bool :=
  c = ' ' || c = '\t' || c = '\n' || c = '\r' || c = '\x0b' || c = '\x0c'

/-- The line boundaries Python str.splitlines recognizes, other than the
two-character CRLF which is handled where the text is scanned. -/
def pyIsLineBreak (c : Char) : Bool :=
  c = '\n' || c = '\r' || c = '\x0b' || c = '\x0c' || c = '\x1c' ||
  c = '\x1d' || c = '\x1e' || c = '\x85' || c = '\u2028' || c = '\u2029'

/-- Python str.split with no argument: maximal runs of non-whitespace, with
no empty tokens.  acc holds the current token reversed. -/
def pySplitAux : List Char → List Char → List (List Char)
  | [], acc => if acc.isEmpty then [] else [acc.reverse]
  | c :: cs, acc =>
    if pyIsSpace c then
      if acc.isEmpty then pySplitAux cs [] else acc.reverse :: pySplitAux cs []
    else pySplitAux cs (c :: acc)

/-- text.split() at main.py line 219. -/
def pySplit (t : List Char) : List (List Char) := pySplitAux t []

/-- Python str.splitlines: split at every line boundary, treating CRLF as a
single boundary, with no extra empty line for a trailing boundary. -/
def pySplitlinesAux : List Char → List Char → List (List Char)
  | [], acc => if acc.isEmpty then [] else [acc.reverse]
  | '\r' :: '\n' :: cs, acc => acc.reverse :: pySplitlinesAux cs []
  | c :: cs, acc =>
    if pyIsLineBreak c then acc.reverse :: pySplitlinesAux cs []
    else pySplitlinesAux cs (c :: acc)

/-- text.splitlines() at main.py line 218. -/
def pySplitlines (t : List Char) : List (List Char) := pySplitlinesAux t []

/-- One insertion into a collections.Counter under construction: bump the
count of a known word in place, or append a new word at the end, so keys
stay in first-encounter order as Python dicts do. -/
def counterInsert (m : List (List Char × Nat)) (w : List Char) : List (List Char × Nat) :=
  match m with
  | [] => [(w, 1)]
  | (k, n) :: rest => if k = w then (k, n + 1) :: rest else (k, n) :: counterInsert rest w

/-- Counter(words) at main.py line 223: word to count, keys in
first-encounter order. -/
def counterOf (ws : List (List Char)) : List (List Char × Nat) := ws.foldl counterInsert []

/-- Stable insertion into a list sorted by descending count: the new element
goes before the first entry whose count is not greater, so an
earlier-encountered word precedes later ones of equal count. -/
def insertByCount (p : List Char × Nat) : List (List Char × Nat) → List (List Char × Nat)
  | [] => [p]
  | q :: rest => if p.2 < q.2 then q :: insertByCount p rest else p :: q :: rest

/-- Stable sort by descending count, the order CPython documents for
Counter.most_common: sorted by count, ties in insertion order. -/
def sortByCountDesc : List (List Char × Nat) → List (List Char × Nat)
  | [] => []
  | p :: rest => insertByCount p (sortByCountDesc rest)

/-- freq.most_common(10) at main.py line 236. -/
def mostCommon10 (m : List (List Char × Nat)) : List (List Char × Nat) :=
  (sortByCountDesc m).take 10

/-- The statistics computed at main.py lines 217-223: line count, word
count, character count and the word-frequency counter. -/
structure AnalyzeStats where
  lineCount : Nat
  wordCount : Nat
  charCount : Nat
  freq : List (List Char × Nat)
  deriving DecidableEq

/-- lines, words, chars and freq of handle_analyze, main.py lines 217-223. -/
def analyzeStats (t : List Char) : AnalyzeStats :=
  ⟨(pySplitlines t).length, (pySplit t).length, t.length, counterOf (pySplit t)⟩

/-- The four display flags of the analyze subcommand. -/
structure AFlags where
  freq : Bool
  lines : Bool
  words : Bool
  chars : Bool
  deriving DecidableEq

/-- One printed line of handle_analyze. -/
inductive OutLine
  | totalLines (n : Nat)
  | totalWords (n : Nat)
  | totalChars (n : Nat)
  | freqHeader
  | freqEntry (w : List Char) (n : Nat)
  deriving DecidableEq

/-- handle_analyze after the file is read, main.py lines 217-237: compute the
statistics, switch every display flag on when none is set (lines 225-226),
then print the chosen statistics in the order lines, words, chars,
frequency (a header plus the ten most common words). -/
def handle_analyze (f : AFlags) (t : List Char) : List OutLine :=
  let s := analyzeStats t
  let g : AFlags :=
    if f.freq || f.lines || f.words || f.chars then f else ⟨true, true, true, true⟩
  (if g.lines then [OutLine.totalLines s.lineCount] else []) ++
  (if g.words then [OutLine.totalWords s.wordCount] else []) ++
  (if g.chars then [OutLine.totalChars s.charCount] else []) ++
  (if g.freq then
    OutLine.freqHeader :: (mostCommon10 s.freq).map (fun p => OutLine.freqEntry p.1 p.2)
  else [])

/-- Claim C7.  The analyzer counts are the splitlines count, the
whitespace-split token count and the raw length, and on the five-character
input a, space, b, newline, c they are 2 lines, 3 words, 5 characters. -/
theorem c7_analyzer_counts :
    (∀ t : List Char,
      (analyzeStats t).lineCount = (pySplitlines t).length ∧
      (analyzeStats t).wordCount = (pySplit t).length ∧
      (analyzeStats t).charCount = t.length) ∧
    (analyzeStats ['a', ' ', 'b', '\n', 'c']).lineCount = 2 ∧
    (analyzeStats ['a', ' ', 'b', '\n', 'c']).wordCount = 3 ∧
    (analyzeStats ['a', ' ', 'b', '\n', 'c']).charCount = 5 := by
  exact ⟨fun t => ⟨rfl, rfl, rfl⟩, by decide, by decide, by decide⟩

/-- Membership in a stable insertion: the inserted pair or an element of the
original list. -/
theorem mem_insertByCount (x p : List Char × Nat) (l : List (List Char × Nat)) :
    x ∈ insertByCount p l ↔ x = p ∨ x ∈ l := by
  induction l with
  | nil => simp [insertByCount]
  | cons q rest ih =>
    by_cases h : p.2 < q.2
    · simp only [insertByCount, if_pos h, List.mem_cons, ih]
      tauto
    · simp only [insertByCount, if_neg h, List.mem_cons]

/-- Stable insertion preserves the descending-count ordering. -/
theorem pairwise_insertByCount (p : List Char × Nat) (l : List (List Char × Nat))
    (hl : l.Pairwise (fun a b => b.2 ≤ a.2)) :
    (insertByCount p l).Pairwise (fun a b => b.2 ≤ a.2) := by
  induction l with
  | nil => simp [insertByCount]
  | cons q rest ih =>
    rcases List.pairwise_cons.mp hl with ⟨hq, hrest⟩
    by_cases h : p.2 < q.2
    · rw [show insertByCount p (q :: rest) = q :: insertByCount p rest by
        simp [insertByCount, if_pos h]]
      refine List.pairwise_cons.mpr ⟨?_, ih hrest⟩
      intro x hx
      rcases (mem_insertByCount x p rest).mp hx with hxp | hxl
      · exact hxp ▸ Nat.le_of_lt h
      · exact hq x hxl
    · rw [show insertByCount p (q :: rest) = p :: q :: rest by
        simp [insertByCount, if_neg h]]
      refine List.pairwise_cons.mpr ⟨?_, hl⟩
      intro x hx
      rcases List.mem_cons.mp hx with hxq | hxl
      · exact hxq ▸ Nat.le_of_not_lt h
      · exact Nat.le_trans (hq x hxl) (Nat.le_of_not_lt h)

/-- The stable sort by descending count is sorted by descending count. -/
theorem sortByCountDesc_sorted (m : List (List Char × Nat)) :
    (sortByCountDesc m).Pairwise (fun a b => b.2 ≤ a.2) := by
  induction m with
  | nil => simp [sortByCountDesc]
  | cons p rest ih => exact pairwise_insertByCount p _ ih

/-- Stability of the insertion, phrased through filters: the entries of any
fixed count keep their relative order, because insertion walks only past
strictly larger counts. -/
theorem filter_insertByCount (p : List Char × Nat) (l : List (List Char × Nat)) (c : Nat) :
    (insertByCount p l).filter (fun q => q.2 == c) =
      if p.2 = c then p :: l.filter (fun q => q.2 == c)
      else l.filter (fun q => q.2 == c) := by
  induction l with
  | nil => by_cases h : p.2 = c <;> simp [insertByCount, h]
  | cons q rest ih =>
    by_cases h : p.2 < q.2
    · rw [show insertByCount p (q :: rest) = q :: insertByCount p rest by
        simp [insertByCount, if_pos h]]
      by_cases hq : q.2 = c
      · have hpc : ¬(p.2 = c) := by omega
        simp [List.filter_cons, hq, hpc, ih]
      · simp [List.filter_cons, hq, ih]
    · rw [show insertByCount p (q :: rest) = p :: q :: rest by
        simp [insertByCount, if_neg h]]
      by_cases hp : p.2 = c <;> simp [List.filter_cons, hp]

/-- Stability of the whole sort: filtering to any fixed count commutes with
sorting, so equal-count entries stay in first-encounter order. -/
theorem filter_sortByCountDesc (m : List (List Char × Nat)) (c : Nat) :
    (sortByCountDesc m).filter (fun q => q.2 == c) = m.filter (fun q => q.2 == c) := by
  induction m with
  | nil => rfl
  | cons p rest ih =>
    simp only [sortByCountDesc]
    rw [filter_insertByCount]
    by_cases h : p.2 = c <;> simp [List.filter_cons, h, ih]

/-- Claim C8.  The frequency report is the first ten entries of the counter
sorted by descending count; the sort keeps equal counts in first-encounter
order (the filter at any fixed count is unchanged); and on the input
a space a space b the report is a with count 2 before b with count 1. -/
theorem c8_freq_report :
    (∀ t : List Char,
      (mostCommon10 (counterOf (pySplit t))).Pairwise (fun a b => b.2 ≤ a.2) ∧
      (mostCommon10 (counterOf (pySplit t))).length ≤ 10 ∧
      (∀ c : Nat,
        (sortByCountDesc (counterOf (pySplit t))).filter (fun q => q.2 == c) =
          (counterOf (pySplit t)).filter (fun q => q.2 == c))) ∧
    mostCommon10 (counterOf (pySplit ['a', ' ', 'a', ' ', 'b'])) =
      [(['a'], 2), (['b'], 1)] := by
  refine ⟨fun t => ⟨?_, ?_, fun c => filter_sortByCountDesc _ c⟩, by decide⟩
  · exact List.Pairwise.sublist (List.take_sublist 10 _) (sortByCountDesc_sorted _)
  · simp [mostCommon10]

/-- Claim C9.  When none of the four display flags is set, handle_analyze
prints exactly what it prints with all four flags set. -/
theorem c9_default_flags (f : AFlags) (t : List Char)
    (h1 : f.freq = false) (h2 : f.lines = false) (h3 : f.words = false)
    (h4 : f.chars = false) :
    handle_analyze f t = handle_analyze ⟨true, true, true, true⟩ t := by
  cases f
  subst h1 h2 h3 h4
  rfl

/-- Witness for c9_default_flags at a concrete input. -/
theorem c9_default_flags_witness :
    handle_analyze ⟨false, false, false, false⟩ ['h', 'i'] =
      handle_analyze ⟨true, true, true, true⟩ ['h', 'i'] :=
  c9_default_flags ⟨false, false, false, false⟩ ['h', 'i'] rfl rfl rfl rfl

end PyToolbox
